import Mathlib

/-!
Verification of the Buchla low-pass gate MetaSound node
(BuchlaBongo/Source/BuchlaBongo/Private/BuchlaLowPassGate.cpp).

Shallow embedding conventions:
* `float` values are modelled as exact rationals (`ℚ`);
* `int32` values are modelled as `ℤ` (no quantity here approaches 2^31);
* the opaque floating-point power function `FMath::Pow` is passed in as an
  explicit parameter `pow : ℚ → ℚ → ℚ` of the envelope engine, instantiated
  with a concrete computable function for closed evaluations;
* the opaque `Audio::FStateVariableFilter` DSP kernel is abstracted as a
  `FilterModel`: a committed parameter record plus an arbitrary internal
  state transformer, since the node treats it as a black box.
-/

namespace BuchlaLPG

/-- UE sentinel for an invalid index; the envelope is idle when
`CurrentSampleIndex = INDEX_NONE`. -/
def INDEX_NONE : ℤ := -1

/-- UE constant KINDA_SMALL_NUMBER = 1.e-4f, the curve-factor clamp floor. -/
def KINDA_SMALL_NUMBER : ℚ := 1 / 10000

/-- UE constant SMALL_NUMBER = 1.e-8f, the default tolerance of
FMath::IsNearlyEqual. -/
def SMALL_NUMBER : ℚ := 1 / 100000000

/-- FMath::Clamp. UE evaluates (X < Min) ? Min : (X < Max) ? X : Max. -/
def clampQ (x lo hi : ℚ) : ℚ :=
  if x < lo then lo else if x < hi then x else hi

/-- FMath::IsNearlyEqual with its default tolerance. -/
def isNearlyEqual (a b : ℚ) : Prop := |a - b| ≤ SMALL_NUMBER

instance (a b : ℚ) : Decidable (isNearlyEqual a b) := by
  unfold isNearlyEqual; infer_instance

/-- FMath::GetMappedRangeValueClamped: linear map of Value from the input
range onto the output range, with the range fraction clamped to [0,1]. -/
def GetMappedRangeValueClamped (inLo inHi outLo outHi v : ℚ) : ℚ :=
  outLo + (outHi - outLo) * clampQ ((v - inLo) / (inHi - inLo)) 0 1

/-- Computable stand-in for the opaque floating-point FMath::Pow, exact on
natural-number exponents; used to instantiate the abstract pow parameter in
closed evaluations (all concrete runs below use curve factor 1). -/
def powQ (b e : ℚ) : ℚ := b ^ e.num.toNat

/-- Mirror of struct FEnvelopeState. `EnvelopeEaseValue` holds the value of
the Audio::FExponentialEase member, which the node writes but never reads
back into any output. -/
structure FEnvelopeState where
  CurrentSampleIndex : ℤ
  AttackSampleCount : ℤ
  DecaySampleCount : ℤ
  AttackCurveFactor : ℚ
  DecayCurveFactor : ℚ
  EnvelopeEaseValue : ℚ
  StartingEnvelopeValue : ℚ
  CurrentEnvelopeValue : ℚ
  bLooping : Bool
  bHardReset : Bool
deriving DecidableEq

/-- Field initializers of FEnvelopeState (also the effect of Reset). -/
def initEnvelopeState : FEnvelopeState :=
  { CurrentSampleIndex := INDEX_NONE
    AttackSampleCount := 1
    DecaySampleCount := 1
    AttackCurveFactor := 0
    DecayCurveFactor := 0
    EnvelopeEaseValue := 0
    StartingEnvelopeValue := 0
    CurrentEnvelopeValue := 0
    bLooping := false
    bHardReset := false }

set_option linter.unusedVariables false

/-- Mirror of Envelope::GetNextEnvelopeOutput. Returns the new state, the
finished-frame list and the envelope output value. `EndFrame` is a parameter
of the source function but is never read. -/
def GetNextEnvelopeOutput (pow : ℚ → ℚ → ℚ) (InState : FEnvelopeState)
    (StartFrame EndFrame : ℤ) : FEnvelopeState × List ℤ × ℚ :=
  if 0 < StartFrame ∨ InState.CurrentSampleIndex = INDEX_NONE then
    (InState, [], 0)
  else if InState.CurrentSampleIndex < InState.AttackSampleCount then
    if 1 < InState.AttackSampleCount then
      ({ InState with CurrentSampleIndex := InState.CurrentSampleIndex + 1 }, [],
        InState.StartingEnvelopeValue + (1 - InState.StartingEnvelopeValue) *
          pow ((InState.CurrentSampleIndex : ℚ) / (InState.AttackSampleCount : ℚ))
            InState.AttackCurveFactor)
    else
      ({ InState with CurrentSampleIndex := InState.CurrentSampleIndex + 1 }, [], 1)
  else
    if InState.CurrentSampleIndex < InState.AttackSampleCount + InState.DecaySampleCount then
      ({ InState with CurrentSampleIndex := InState.CurrentSampleIndex + 1 }, [],
        1 - pow (((InState.CurrentSampleIndex - InState.AttackSampleCount : ℤ) : ℚ) /
              (InState.DecaySampleCount : ℚ))
            InState.DecayCurveFactor)
    else
      ({ InState with CurrentSampleIndex := INDEX_NONE }, [(0 : ℤ)], 0)

/-- Block-rate control inputs of one Execute call. -/
structure FBlockInputs where
  Triggers : List ℤ
  NumFrames : ℤ
  AttackTimeSeconds : ℚ
  DecayTimeSeconds : ℚ
  AttackCurveFactor : ℚ
  DecayCurveFactor : ℚ
  AudioInput : List ℚ
  CutOffFrequency : ℚ
deriving DecidableEq

/-- Mirror of FLowPassGateOperator::UpdateParams. The source assigns
FMath::Max(1, SampleRate * Seconds) — a float max — to the int32 sample
count; the implicit float-to-int conversion truncates toward zero, which on
a value that is at least 1 is the floor. -/
def UpdateParams (SampleRate : ℚ) (inputs : FBlockInputs) (s : FEnvelopeState) :
    FEnvelopeState :=
  { s with
    AttackSampleCount := ⌊max 1 (SampleRate * inputs.AttackTimeSeconds)⌋
    DecaySampleCount := ⌊max 1 (SampleRate * inputs.DecayTimeSeconds)⌋
    AttackCurveFactor := max KINDA_SMALL_NUMBER inputs.AttackCurveFactor
    DecayCurveFactor := max KINDA_SMALL_NUMBER inputs.DecayCurveFactor }

/-- The three operating modes (enum ELowPassGateMode). -/
inductive ELowPassGateMode where
  | LowPass
  | VCA
  | Both
deriving DecidableEq

/-- Committed parameter set of the wrapped Audio::FStateVariableFilter. -/
structure FilterParams where
  Frequency : ℚ
  Q : ℚ
  BandStopControl : ℚ
deriving DecidableEq

/-- The wrapped state-variable filter is a black box; it is abstracted as an
arbitrary internal state type with a processing function taking the committed
parameters, the internal DSP state and the input buffer. -/
structure FilterModel (σ : Type) where
  process : FilterParams → σ → List ℚ → List ℚ × σ

/-- Trivial filter instantiation (identity pass-through) used for closed
evaluations of claims that do not constrain the opaque DSP kernel. -/
def idFilter : FilterModel Unit := ⟨fun _ u xs => (xs, u)⟩

/-- Block-rate state of FLowPassGateOperator: the envelope state, the
committed filter parameters and opaque internal filter state, the three
parameter-cache fields, the two output trigger streams (frames emitted in
the current block), the block-rate envelope output and the audio output. -/
structure FOperatorState (σ : Type) where
  EnvelopeState : FEnvelopeState
  VariableFilterParams : FilterParams
  VariableFilterInternal : σ
  PreviousFrequency : ℚ
  PreviousResonance : ℚ
  PreviousBandStopControl : ℚ
  OnAttackTrigger : List ℤ
  OnDone : List ℤ
  OutEnvelope : ℚ
  AudioOutput : List ℚ
  SampleRate : ℚ
deriving DecidableEq

/-- State of a freshly constructed operator: envelope state from its field
initializers, the three cache fields at the -1 sentinel, empty trigger
outputs, zero envelope output. -/
def initOperatorState {σ : Type} (SampleRate : ℚ) (filt : σ) : FOperatorState σ :=
  { EnvelopeState := initEnvelopeState
    VariableFilterParams := ⟨0, 0, 0⟩
    VariableFilterInternal := filt
    PreviousFrequency := -1
    PreviousResonance := -1
    PreviousBandStopControl := -1
    OnAttackTrigger := []
    OnDone := []
    OutEnvelope := 0
    AudioOutput := []
    SampleRate := SampleRate }

/-- First lambda of TriggerAttackIn->ExecuteBlock in CalculateEnvelope: run
the envelope engine over a trigger-free sub-range and forward any finished
frames to the On Done trigger stream. -/
def preTriggerLambda (pow : ℚ → ℚ → ℚ) {σ : Type} (s : FOperatorState σ)
    (StartFrame EndFrame : ℤ) : FOperatorState σ :=
  let r := GetNextEnvelopeOutput pow s.EnvelopeState StartFrame EndFrame
  { s with EnvelopeState := r.1, OutEnvelope := r.2.2, OnDone := s.OnDone ++ r.2.1 }

/-- Second lambda of TriggerAttackIn->ExecuteBlock: on a trigger sub-range,
re-run UpdateParams, reset the sample index, capture the retrigger baseline
(zero on hard reset, else CurrentEnvelopeValue), prime the ease to it, run
the engine, forward finished frames, and emit the attack trigger at the
sub-range start frame. -/
def onTriggerLambda (pow : ℚ → ℚ → ℚ) {σ : Type} (SampleRate : ℚ)
    (inputs : FBlockInputs) (s : FOperatorState σ)
    (StartFrame EndFrame : ℤ) : FOperatorState σ :=
  let es0 := UpdateParams SampleRate inputs s.EnvelopeState
  let sv : ℚ := if es0.bHardReset then 0 else es0.CurrentEnvelopeValue
  let es1 := { es0 with CurrentSampleIndex := (0 : ℤ), StartingEnvelopeValue := sv, EnvelopeEaseValue := sv }
  let r := GetNextEnvelopeOutput pow es1 StartFrame EndFrame
  { s with EnvelopeState := r.1, OutEnvelope := r.2.2, OnDone := s.OnDone ++ r.2.1, OnAttackTrigger := s.OnAttackTrigger ++ [StartFrame] }

/-- Modelled from the spec: the host trigger stream's ExecuteBlock (MetaSound
framework code, not part of this repository's source). It partitions the
block at the trigger frames: the leading trigger-free sub-range (when the
first trigger is not at frame 0, or the whole block when there is no
trigger) goes to the first lambda; each sub-range starting at a trigger
frame goes to the second lambda. `subRangeEnds` pairs each trigger frame
with the next trigger frame (or the block end). -/
def subRangeEnds (triggers : List ℤ) (NumFrames : ℤ) : List (ℤ × ℤ) :=
  match triggers with
  | [] => []
  | t :: rest =>
    (t, match rest with | [] => NumFrames | u :: _ => u) :: subRangeEnds rest NumFrames

/-- Modelled from the spec: see `subRangeEnds`. -/
def executeBlock {α : Type} (pre onTrig : α → ℤ → ℤ → α)
    (triggers : List ℤ) (NumFrames : ℤ) (s : α) : α :=
  match triggers with
  | [] => pre s 0 NumFrames
  | t :: _ =>
    let s0 := if 0 < t then pre s 0 t else s
    (subRangeEnds triggers NumFrames).foldl (fun acc r => onTrig acc r.1 r.2) s0

/-- Mirror of FLowPassGateOperator::CalculateEnvelope: advance (clear) both
output trigger streams, refresh the derived parameters, then dispatch the
block's sub-ranges to the two lambdas. -/
def CalculateEnvelope (pow : ℚ → ℚ → ℚ) {σ : Type} (inputs : FBlockInputs)
    (s : FOperatorState σ) : FOperatorState σ :=
  let s1 := { s with OnAttackTrigger := ([] : List ℤ), OnDone := ([] : List ℤ) }
  let s2 := { s1 with EnvelopeState := UpdateParams s.SampleRate inputs s1.EnvelopeState }
  executeBlock (preTriggerLambda pow) (onTriggerLambda pow s.SampleRate inputs)
    inputs.Triggers inputs.NumFrames s2

/-- Mirror of FLowPassGateOperator::HandleLowPassFilter: clamp the cutoff to
[0, 0.5 * SampleRate], fix resonance and band-stop at 0, and commit the
filter parameters only when one of them is not nearly equal to its cached
previous value, updating the cache on commit. -/
def HandleLowPassFilter {σ : Type} (CutOffFrequency : ℚ) (s : FOperatorState σ) :
    FOperatorState σ :=
  let CurrentFrequency := clampQ CutOffFrequency 0 ((1 / 2) * s.SampleRate)
  let CurrentResonance := clampQ 0 0 10
  let CurrentBandStopControl := clampQ 0 0 1
  if ¬ isNearlyEqual s.PreviousFrequency CurrentFrequency
      ∨ ¬ isNearlyEqual s.PreviousResonance CurrentResonance
      ∨ ¬ isNearlyEqual s.PreviousBandStopControl CurrentBandStopControl then
    { s with VariableFilterParams := ⟨CurrentFrequency, CurrentResonance, CurrentBandStopControl⟩, PreviousFrequency := CurrentFrequency, PreviousResonance := CurrentResonance, PreviousBandStopControl := CurrentBandStopControl }
  else s

/-- Mirror of FLowPassGateOperator::Execute: mode dispatch. In LowPass mode
only the filter runs; in VCA mode the envelope scales the input; in Both
mode (the source inlines a verbatim copy of CalculateEnvelope there) the
input is scaled by envelope times the range-mapped cutoff into a scratch
buffer which is then filtered with the unmapped cutoff. -/
def Execute (pow : ℚ → ℚ → ℚ) {σ : Type} (M : FilterModel σ)
    (Mode : ELowPassGateMode) (inputs : FBlockInputs) (s : FOperatorState σ) :
    FOperatorState σ :=
  if Mode = ELowPassGateMode.LowPass then
    let s1 := HandleLowPassFilter inputs.CutOffFrequency s
    let r := M.process s1.VariableFilterParams s1.VariableFilterInternal inputs.AudioInput
    { s1 with AudioOutput := r.1, VariableFilterInternal := r.2 }
  else if Mode = ELowPassGateMode.VCA then
    let s1 := CalculateEnvelope pow inputs s
    { s1 with AudioOutput := inputs.AudioInput.map (fun x => x * s1.OutEnvelope) }
  else if Mode = ELowPassGateMode.Both then
    let ClampedFreq := GetMappedRangeValueClamped 0 20000 0 1 inputs.CutOffFrequency
    let s1 := CalculateEnvelope pow inputs s
    let GateEnvelope := s1.OutEnvelope * ClampedFreq
    let LocalBuffer := inputs.AudioInput.map (fun x => x * GateEnvelope)
    let s2 := HandleLowPassFilter inputs.CutOffFrequency s1
    let r := M.process s2.VariableFilterParams s2.VariableFilterInternal LocalBuffer
    { s2 with AudioOutput := r.1, VariableFilterInternal := r.2 }
  else s

/-- Iterated envelope-engine advance (each call with start frame 0), used
for whole-envelope runs: the accumulator carries the state, the finished
frames collected so far, and the output of the most recent call. -/
def advanceRun (pow : ℚ → ℚ → ℚ) : ℕ → FEnvelopeState × List ℤ × ℚ → FEnvelopeState × List ℤ × ℚ
  | 0, acc => acc
  | n + 1, acc =>
    let r := GetNextEnvelopeOutput pow acc.1 0 0
    advanceRun pow n (r.1, acc.2.1 ++ r.2.1, r.2.2)

/-- The spec's sample-count derivation uses rounding to the nearest integer;
this definition follows the spec's words (round half up) and is compared
against the truncating computation of UpdateParams. -/
def specRound (q : ℚ) : ℤ := ⌊q + 1 / 2⌋

/-- Concrete envelope state used for closed evaluations of the envelope
engine: mid-attack, attack count 3, decay count 2, linear curves. -/
def c3s : FEnvelopeState := { initEnvelopeState with CurrentSampleIndex := 1, AttackSampleCount := 3, DecaySampleCount := 2, AttackCurveFactor := 1, DecayCurveFactor := 1 }

/-- Block inputs exhibiting the truncation of sample_rate * attack_seconds:
at sample rate 10, attack time 0.15 s gives 1.5 samples. -/
def c6in : FBlockInputs := { Triggers := [], NumFrames := 4, AttackTimeSeconds := 3 / 20, DecayTimeSeconds := 1, AttackCurveFactor := 1, DecayCurveFactor := 1, AudioInput := [], CutOffFrequency := 1000 }

/-- Fresh operator state at sample rate 48000 used for filter-cache
evaluations. -/
def c9s : FOperatorState Unit := initOperatorState 48000 ()

/-- Block inputs with a trigger at frame 1 (mid-block), attack 2 samples at
sample rate 1. -/
def c2in : FBlockInputs := { Triggers := [1], NumFrames := 4, AttackTimeSeconds := 2, DecayTimeSeconds := 1, AttackCurveFactor := 1, DecayCurveFactor := 1, AudioInput := [1, 1, 1, 1], CutOffFrequency := 1000 }

/-- Operator state after one VCA block with a trigger at frame 1. -/
def c2s : FOperatorState Unit := Execute powQ idFilter ELowPassGateMode.VCA c2in (initOperatorState 1 ())

/-- Envelope state at the start of a run: index 0, attack count 1, decay
count 1 (the field-initializer counts), linear curves. -/
def c4s : FEnvelopeState := { initEnvelopeState with CurrentSampleIndex := 0, AttackCurveFactor := 1, DecayCurveFactor := 1 }

/-- Block inputs for a whole-envelope run at sample rate 1: attack 1 sample,
decay 1 sample, trigger at frame 0. -/
def c10in1 : FBlockInputs := { Triggers := [0], NumFrames := 4, AttackTimeSeconds := 1, DecayTimeSeconds := 1, AttackCurveFactor := 1, DecayCurveFactor := 1, AudioInput := [1, 1, 1, 1], CutOffFrequency := 1000 }

/-- The same block inputs with no trigger. -/
def c10in2 : FBlockInputs := { c10in1 with Triggers := [] }

/-- Operator state after the triggered block. -/
def c10s1 : FOperatorState Unit := Execute powQ idFilter ELowPassGateMode.VCA c10in1 (initOperatorState 1 ())

/-- Operator state after one further free-running block (last decay sample). -/
def c10s2 : FOperatorState Unit := Execute powQ idFilter ELowPassGateMode.VCA c10in2 c10s1

/-- Fresh Both-mode inputs: no trigger, audio [1, 2], cutoff 1000. -/
def c5in : FBlockInputs := { Triggers := [], NumFrames := 2, AttackTimeSeconds := 2, DecayTimeSeconds := 1, AttackCurveFactor := 1, DecayCurveFactor := 1, AudioInput := [1, 2], CutOffFrequency := 1000 }

/-- VCA block inputs: trigger at frame 0, attack 2 samples at sample rate 1,
constant input 1. -/
def c8in1 : FBlockInputs := { Triggers := [0], NumFrames := 3, AttackTimeSeconds := 2, DecayTimeSeconds := 1, AttackCurveFactor := 1, DecayCurveFactor := 1, AudioInput := List.replicate 3 1, CutOffFrequency := 1000 }

/-- The same inputs with no trigger (free-running block). -/
def c8in2 : FBlockInputs := { c8in1 with Triggers := [] }

/-- Operator state after the triggered block (one attack sample consumed). -/
def c8s1 : FOperatorState Unit := Execute powQ idFilter ELowPassGateMode.VCA c8in1 (initOperatorState 1 ())

/-- Three-block retrigger scenario at sample rate 1: attack 2 samples,
decay 1 sample, linear curves, trigger at frame 0 of blocks one and three. -/
def c1in1 : FBlockInputs := { Triggers := [0], NumFrames := 4, AttackTimeSeconds := 2, DecayTimeSeconds := 1, AttackCurveFactor := 1, DecayCurveFactor := 1, AudioInput := [1, 1, 1, 1], CutOffFrequency := 1000 }

/-- The same inputs with no trigger (free-running block two). -/
def c1in2 : FBlockInputs := { c1in1 with Triggers := [] }

/-- Operator state after block one (trigger at frame 0, first attack sample). -/
def c1s1 : FOperatorState Unit := Execute powQ idFilter ELowPassGateMode.VCA c1in1 (initOperatorState 1 ())

/-- Operator state after block two: mid-attack, envelope output one half. -/
def c1s2 : FOperatorState Unit := Execute powQ idFilter ELowPassGateMode.VCA c1in2 c1s1

/-- Operator state after block three: retrigger at frame 0 with no hard
reset, while the envelope is mid-run at value one half. -/
def c1s3 : FOperatorState Unit := Execute powQ idFilter ELowPassGateMode.VCA c1in1 c1s2

section Lemmas

lemma powQ_zero {e : ℚ} (he : 0 < e) : powQ 0 e = 0 := by
  have hnum : 0 < e.num := Rat.num_pos.mpr he
  have : e.num.toNat ≠ 0 := by omega
  simp [powQ, zero_pow this]

lemma isNearlyEqual_refl (a : ℚ) : isNearlyEqual a a := by
  norm_num [isNearlyEqual, SMALL_NUMBER]

lemma floor_max_one (x : ℚ) : ⌊max 1 x⌋ = max 1 ⌊x⌋ := by
  rcases le_total 1 x with h | h
  · rw [max_eq_right h, max_eq_right]
    exact Int.le_floor.mpr (by exact_mod_cast h)
  · rw [max_eq_left h, max_eq_left, Int.floor_one]
    calc ⌊x⌋ ≤ ⌊(1 : ℚ)⌋ := Int.floor_le_floor h
    _ = 1 := Int.floor_one

lemma UpdateParams_attack_one_le (SampleRate : ℚ) (inputs : FBlockInputs) (s : FEnvelopeState) :
    1 ≤ (UpdateParams SampleRate inputs s).AttackSampleCount := by
  simp only [UpdateParams]
  exact Int.le_floor.mpr (by push_cast; exact le_max_left 1 _)

lemma UpdateParams_decay_one_le (SampleRate : ℚ) (inputs : FBlockInputs) (s : FEnvelopeState) :
    1 ≤ (UpdateParams SampleRate inputs s).DecaySampleCount := by
  simp only [UpdateParams]
  exact Int.le_floor.mpr (by push_cast; exact le_max_left 1 _)

lemma UpdateParams_attack_curve_pos (SampleRate : ℚ) (inputs : FBlockInputs) (s : FEnvelopeState) :
    0 < (UpdateParams SampleRate inputs s).AttackCurveFactor := by
  simp only [UpdateParams]
  calc (0 : ℚ) < KINDA_SMALL_NUMBER := by norm_num [KINDA_SMALL_NUMBER]
  _ ≤ max KINDA_SMALL_NUMBER inputs.AttackCurveFactor := le_max_left _ _

lemma UpdateParams_decay_curve_pos (SampleRate : ℚ) (inputs : FBlockInputs) (s : FEnvelopeState) :
    0 < (UpdateParams SampleRate inputs s).DecayCurveFactor := by
  simp only [UpdateParams]
  calc (0 : ℚ) < KINDA_SMALL_NUMBER := by norm_num [KINDA_SMALL_NUMBER]
  _ ≤ max KINDA_SMALL_NUMBER inputs.DecayCurveFactor := le_max_left _ _

lemma UpdateParams_bHardReset (SampleRate : ℚ) (inputs : FBlockInputs) (s : FEnvelopeState) :
    (UpdateParams SampleRate inputs s).bHardReset = s.bHardReset := rfl

lemma UpdateParams_CurrentEnvelopeValue (SampleRate : ℚ) (inputs : FBlockInputs) (s : FEnvelopeState) :
    (UpdateParams SampleRate inputs s).CurrentEnvelopeValue = s.CurrentEnvelopeValue := rfl

lemma GetNext_finished_zero (pow : ℚ → ℚ → ℚ) (st : FEnvelopeState) (a b f : ℤ)
    (hf : f ∈ (GetNextEnvelopeOutput pow st a b).2.1) : f = 0 := by
  unfold GetNextEnvelopeOutput at hf
  split_ifs at hf <;> simp_all

lemma GetNext_step_active (pow : ℚ → ℚ → ℚ) (s : FEnvelopeState) (e : ℤ)
    (h0 : 0 ≤ s.CurrentSampleIndex)
    (hlt : s.CurrentSampleIndex < s.AttackSampleCount + s.DecaySampleCount) :
    (GetNextEnvelopeOutput pow s 0 e).1 = { s with CurrentSampleIndex := s.CurrentSampleIndex + 1 } ∧
    (GetNextEnvelopeOutput pow s 0 e).2.1 = [] := by
  have hne : ¬ s.CurrentSampleIndex = INDEX_NONE := by simp [INDEX_NONE]; omega
  by_cases hA : s.CurrentSampleIndex < s.AttackSampleCount
  · by_cases h1 : 1 < s.AttackSampleCount <;>
      simp [GetNextEnvelopeOutput, hne, hA, h1]
  · simp [GetNextEnvelopeOutput, hne, hA, hlt]

lemma advanceRun_add (pow : ℚ → ℚ → ℚ) (m k : ℕ) (acc : FEnvelopeState × List ℤ × ℚ) :
    advanceRun pow (m + k) acc = advanceRun pow k (advanceRun pow m acc) := by
  induction m generalizing acc with
  | zero => simp [advanceRun]
  | succ n ih =>
    have hmk : n + 1 + k = (n + k) + 1 := by omega
    rw [hmk]
    simp only [advanceRun]
    exact ih _

lemma advanceRun_no_finish (pow : ℚ → ℚ → ℚ) (n : ℕ) :
    ∀ (s : FEnvelopeState) (fs : List ℤ) (v : ℚ), 0 ≤ s.CurrentSampleIndex →
    s.CurrentSampleIndex + n ≤ s.AttackSampleCount + s.DecaySampleCount →
    (advanceRun pow n (s, fs, v)).1 = { s with CurrentSampleIndex := s.CurrentSampleIndex + n } ∧
    (advanceRun pow n (s, fs, v)).2.1 = fs := by
  induction n with
  | zero =>
    intro s fs v h0 hle
    constructor
    · simp [advanceRun]
    · simp [advanceRun]
  | succ n ih =>
    intro s fs v h0 hle
    have hlt : s.CurrentSampleIndex < s.AttackSampleCount + s.DecaySampleCount := by
      push_cast at hle; omega
    obtain ⟨hst, hfin⟩ := GetNext_step_active pow s 0 h0 hlt
    simp only [advanceRun, hst, hfin, List.append_nil]
    have h0' : (0 : ℤ) ≤ s.CurrentSampleIndex + 1 := by omega
    have hle' : s.CurrentSampleIndex + 1 + (n : ℤ) ≤ s.AttackSampleCount + s.DecaySampleCount := by
      push_cast at hle; omega
    obtain ⟨h1, h2⟩ := ih { s with CurrentSampleIndex := s.CurrentSampleIndex + 1 } fs
      (GetNextEnvelopeOutput pow s 0 0).2.2 h0' hle'
    refine ⟨?_, h2⟩
    rw [h1]
    have : s.CurrentSampleIndex + 1 + (n : ℤ) = s.CurrentSampleIndex + ((n : ℤ) + 1) := by ring
    simp [this]

lemma foldl_preserve {α β γ : Type} (proj : α → γ) (g : α → β → α)
    (h : ∀ a b, proj (g a b) = proj a) :
    ∀ (l : List β) (a : α), proj (l.foldl g a) = proj a := by
  intro l
  induction l with
  | nil => intro a; rfl
  | cons x xs ih =>
    intro a
    rw [List.foldl_cons, ih, h]

lemma foldl_pred {α β : Type} (P : α → Prop) (g : α → β → α)
    (h : ∀ a b, P a → P (g a b)) :
    ∀ (l : List β) (a : α), P a → P (l.foldl g a) := by
  intro l
  induction l with
  | nil => intro a ha; exact ha
  | cons x xs ih =>
    intro a ha
    rw [List.foldl_cons]
    exact ih _ (h _ _ ha)

lemma executeBlock_proj {α γ : Type} (proj : α → γ) (pre onTrig : α → ℤ → ℤ → α)
    (hpre : ∀ s a b, proj (pre s a b) = proj s)
    (hon : ∀ s a b, proj (onTrig s a b) = proj s)
    (ts : List ℤ) (N : ℤ) (s : α) :
    proj (executeBlock pre onTrig ts N s) = proj s := by
  cases ts with
  | nil => exact hpre s 0 N
  | cons t rest =>
    simp only [executeBlock]
    rw [foldl_preserve proj (fun (acc : α) (r : ℤ × ℤ) => onTrig acc r.1 r.2)
      (fun a b => hon a b.1 b.2)]
    by_cases h0 : 0 < t <;> simp [h0, hpre]

lemma executeBlock_pred {α : Type} (P : α → Prop) (pre onTrig : α → ℤ → ℤ → α)
    (hpre : ∀ s a b, P s → P (pre s a b))
    (hon : ∀ s a b, P s → P (onTrig s a b))
    (ts : List ℤ) (N : ℤ) (s : α) (hs : P s) :
    P (executeBlock pre onTrig ts N s) := by
  cases ts with
  | nil => exact hpre s 0 N hs
  | cons t rest =>
    simp only [executeBlock]
    refine foldl_pred P _ (fun a b hb => hon a b.1 b.2 hb) _ _ ?_
    by_cases h0 : 0 < t <;> simp [h0, hpre, hs]

lemma calcEnv_preserves {σ : Type} (pow : ℚ → ℚ → ℚ) (inputs : FBlockInputs)
    (s : FOperatorState σ) :
    (CalculateEnvelope pow inputs s).PreviousFrequency = s.PreviousFrequency ∧
    (CalculateEnvelope pow inputs s).PreviousResonance = s.PreviousResonance ∧
    (CalculateEnvelope pow inputs s).PreviousBandStopControl = s.PreviousBandStopControl ∧
    (CalculateEnvelope pow inputs s).VariableFilterParams = s.VariableFilterParams ∧
    (CalculateEnvelope pow inputs s).VariableFilterInternal = s.VariableFilterInternal ∧
    (CalculateEnvelope pow inputs s).SampleRate = s.SampleRate := by
  unfold CalculateEnvelope
  refine ⟨?_, ?_, ?_, ?_, ?_, ?_⟩
  · exact executeBlock_proj (fun st : FOperatorState σ => st.PreviousFrequency)
      (preTriggerLambda pow) (onTriggerLambda pow s.SampleRate inputs)
      (fun a x y => rfl) (fun a x y => rfl) inputs.Triggers inputs.NumFrames _
  · exact executeBlock_proj (fun st : FOperatorState σ => st.PreviousResonance)
      (preTriggerLambda pow) (onTriggerLambda pow s.SampleRate inputs)
      (fun a x y => rfl) (fun a x y => rfl) inputs.Triggers inputs.NumFrames _
  · exact executeBlock_proj (fun st : FOperatorState σ => st.PreviousBandStopControl)
      (preTriggerLambda pow) (onTriggerLambda pow s.SampleRate inputs)
      (fun a x y => rfl) (fun a x y => rfl) inputs.Triggers inputs.NumFrames _
  · exact executeBlock_proj (fun st : FOperatorState σ => st.VariableFilterParams)
      (preTriggerLambda pow) (onTriggerLambda pow s.SampleRate inputs)
      (fun a x y => rfl) (fun a x y => rfl) inputs.Triggers inputs.NumFrames _
  · exact executeBlock_proj (fun st : FOperatorState σ => st.VariableFilterInternal)
      (preTriggerLambda pow) (onTriggerLambda pow s.SampleRate inputs)
      (fun a x y => rfl) (fun a x y => rfl) inputs.Triggers inputs.NumFrames _
  · exact executeBlock_proj (fun st : FOperatorState σ => st.SampleRate)
      (preTriggerLambda pow) (onTriggerLambda pow s.SampleRate inputs)
      (fun a x y => rfl) (fun a x y => rfl) inputs.Triggers inputs.NumFrames _

lemma HandleLowPassFilter_commit {σ : Type} (c : ℚ) (s : FOperatorState σ)
    (h : ¬ isNearlyEqual s.PreviousFrequency (clampQ c 0 ((1 / 2) * s.SampleRate))
      ∨ ¬ isNearlyEqual s.PreviousResonance (clampQ 0 0 10)
      ∨ ¬ isNearlyEqual s.PreviousBandStopControl (clampQ 0 0 1)) :
    HandleLowPassFilter c s = { s with VariableFilterParams := ⟨clampQ c 0 ((1 / 2) * s.SampleRate), clampQ 0 0 10, clampQ 0 0 1⟩, PreviousFrequency := clampQ c 0 ((1 / 2) * s.SampleRate), PreviousResonance := clampQ 0 0 10, PreviousBandStopControl := clampQ 0 0 1 } := by
  simp only [HandleLowPassFilter]
  rw [if_pos h]

lemma HandleLowPassFilter_skip {σ : Type} (c : ℚ) (s : FOperatorState σ)
    (h1 : isNearlyEqual s.PreviousFrequency (clampQ c 0 ((1 / 2) * s.SampleRate)))
    (h2 : isNearlyEqual s.PreviousResonance (clampQ 0 0 10))
    (h3 : isNearlyEqual s.PreviousBandStopControl (clampQ 0 0 1)) :
    HandleLowPassFilter c s = s := by
  have hcond : ¬ (¬ isNearlyEqual s.PreviousFrequency (clampQ c 0 ((1 / 2) * s.SampleRate))
      ∨ ¬ isNearlyEqual s.PreviousResonance (clampQ 0 0 10)
      ∨ ¬ isNearlyEqual s.PreviousBandStopControl (clampQ 0 0 1)) := by
    simp only [not_or, not_not]
    exact ⟨h1, h2, h3⟩
  simp only [HandleLowPassFilter]
  rw [if_neg hcond]

lemma HandleLowPassFilter_frame_fields {σ : Type} (c : ℚ) (s : FOperatorState σ) :
    (HandleLowPassFilter c s).EnvelopeState = s.EnvelopeState ∧
    (HandleLowPassFilter c s).OnAttackTrigger = s.OnAttackTrigger ∧
    (HandleLowPassFilter c s).OnDone = s.OnDone ∧
    (HandleLowPassFilter c s).OutEnvelope = s.OutEnvelope ∧
    (HandleLowPassFilter c s).VariableFilterInternal = s.VariableFilterInternal ∧
    (HandleLowPassFilter c s).SampleRate = s.SampleRate := by
  simp only [HandleLowPassFilter]
  split_ifs <;> simp

lemma clampQ_zero_ten : clampQ 0 0 10 = 0 := by norm_num [clampQ]

lemma clampQ_zero_one : clampQ 0 0 1 = 0 := by norm_num [clampQ]

lemma Execute_lowpass {σ : Type} (pow : ℚ → ℚ → ℚ) (M : FilterModel σ)
    (inputs : FBlockInputs) (s : FOperatorState σ) :
    Execute pow M ELowPassGateMode.LowPass inputs s =
      { HandleLowPassFilter inputs.CutOffFrequency s with AudioOutput := (M.process (HandleLowPassFilter inputs.CutOffFrequency s).VariableFilterParams (HandleLowPassFilter inputs.CutOffFrequency s).VariableFilterInternal inputs.AudioInput).1, VariableFilterInternal := (M.process (HandleLowPassFilter inputs.CutOffFrequency s).VariableFilterParams (HandleLowPassFilter inputs.CutOffFrequency s).VariableFilterInternal inputs.AudioInput).2 } := rfl

lemma Execute_vca {σ : Type} (pow : ℚ → ℚ → ℚ) (M : FilterModel σ)
    (inputs : FBlockInputs) (s : FOperatorState σ) :
    Execute pow M ELowPassGateMode.VCA inputs s =
      { CalculateEnvelope pow inputs s with AudioOutput := inputs.AudioInput.map (fun x => x * (CalculateEnvelope pow inputs s).OutEnvelope) } := rfl

lemma Execute_both {σ : Type} (pow : ℚ → ℚ → ℚ) (M : FilterModel σ)
    (inputs : FBlockInputs) (s : FOperatorState σ) :
    Execute pow M ELowPassGateMode.Both inputs s =
      { HandleLowPassFilter inputs.CutOffFrequency (CalculateEnvelope pow inputs s) with AudioOutput := (M.process (HandleLowPassFilter inputs.CutOffFrequency (CalculateEnvelope pow inputs s)).VariableFilterParams (HandleLowPassFilter inputs.CutOffFrequency (CalculateEnvelope pow inputs s)).VariableFilterInternal (inputs.AudioInput.map (fun x => x * ((CalculateEnvelope pow inputs s).OutEnvelope * GetMappedRangeValueClamped 0 20000 0 1 inputs.CutOffFrequency)))).1, VariableFilterInternal := (M.process (HandleLowPassFilter inputs.CutOffFrequency (CalculateEnvelope pow inputs s)).VariableFilterParams (HandleLowPassFilter inputs.CutOffFrequency (CalculateEnvelope pow inputs s)).VariableFilterInternal (inputs.AudioInput.map (fun x => x * ((CalculateEnvelope pow inputs s).OutEnvelope * GetMappedRangeValueClamped 0 20000 0 1 inputs.CutOffFrequency)))).2 } := rfl

lemma calcEnv_ondone_zero {σ : Type} (pow : ℚ → ℚ → ℚ) (inputs : FBlockInputs)
    (s : FOperatorState σ) :
    ∀ f ∈ (CalculateEnvelope pow inputs s).OnDone, f = (0 : ℤ) := by
  unfold CalculateEnvelope
  refine executeBlock_pred (fun st : FOperatorState σ => ∀ f ∈ st.OnDone, f = (0 : ℤ))
    (preTriggerLambda pow) (onTriggerLambda pow s.SampleRate inputs)
    ?_ ?_ inputs.Triggers inputs.NumFrames _ ?_
  · intro a x y ha f hf
    simp only [preTriggerLambda, List.mem_append] at hf
    rcases hf with hf | hf
    · exact ha f hf
    · exact GetNext_finished_zero pow a.EnvelopeState x y f hf
  · intro a x y ha f hf
    simp only [onTriggerLambda, List.mem_append] at hf
    rcases hf with hf | hf
    · exact ha f hf
    · exact GetNext_finished_zero pow _ x y f hf
  · intro f hf
    simp at hf

end Lemmas

/-- C3: for an advance call with start frame 0 and an active envelope, the
attack phase (gradual attack) outputs starting + (1 - starting) *
pow(index / attack_count, attack_curve), the instant attack (count 1)
outputs exactly 1, the decay phase outputs 1 - pow((index - attack_count) /
decay_count, decay_curve), all with the fraction taken before the index
increments, and in each case the index increments by exactly 1. -/
theorem C3_advance_phase_outputs (pow : ℚ → ℚ → ℚ) (s : FEnvelopeState) (e : ℤ)
    (hactive : s.CurrentSampleIndex ≠ INDEX_NONE) :
    (s.CurrentSampleIndex < s.AttackSampleCount → 1 < s.AttackSampleCount →
      (GetNextEnvelopeOutput pow s 0 e).2.2 = s.StartingEnvelopeValue + (1 - s.StartingEnvelopeValue) * pow ((s.CurrentSampleIndex : ℚ) / (s.AttackSampleCount : ℚ)) s.AttackCurveFactor ∧
      (GetNextEnvelopeOutput pow s 0 e).1.CurrentSampleIndex = s.CurrentSampleIndex + 1) ∧
    (s.CurrentSampleIndex < s.AttackSampleCount → s.AttackSampleCount = 1 →
      (GetNextEnvelopeOutput pow s 0 e).2.2 = 1 ∧
      (GetNextEnvelopeOutput pow s 0 e).1.CurrentSampleIndex = s.CurrentSampleIndex + 1) ∧
    (s.AttackSampleCount ≤ s.CurrentSampleIndex →
      s.CurrentSampleIndex < s.AttackSampleCount + s.DecaySampleCount →
      (GetNextEnvelopeOutput pow s 0 e).2.2 = 1 - pow (((s.CurrentSampleIndex - s.AttackSampleCount : ℤ) : ℚ) / (s.DecaySampleCount : ℚ)) s.DecayCurveFactor ∧
      (GetNextEnvelopeOutput pow s 0 e).1.CurrentSampleIndex = s.CurrentSampleIndex + 1) := by
  refine ⟨fun h1 h2 => ?_, fun h1 h2 => ?_, fun h1 h2 => ?_⟩
  · simp [GetNextEnvelopeOutput, hactive, h1, h2]
  · have hno : ¬ (1 < s.AttackSampleCount) := by omega
    simp [GetNextEnvelopeOutput, hactive, h1, hno]
  · have hna : ¬ (s.CurrentSampleIndex < s.AttackSampleCount) := not_lt.mpr h1
    simp [GetNextEnvelopeOutput, hactive, hna, h2]

/-- C3 witness: the attack-phase case evaluated at a concrete mid-attack
state. -/
theorem C3_advance_phase_outputs_witness :
    c3s.CurrentSampleIndex ≠ INDEX_NONE ∧
    ((GetNextEnvelopeOutput powQ c3s 0 0).2.2 = c3s.StartingEnvelopeValue + (1 - c3s.StartingEnvelopeValue) * powQ ((c3s.CurrentSampleIndex : ℚ) / (c3s.AttackSampleCount : ℚ)) c3s.AttackCurveFactor ∧
      (GetNextEnvelopeOutput powQ c3s 0 0).1.CurrentSampleIndex = c3s.CurrentSampleIndex + 1) :=
  ⟨by decide, (C3_advance_phase_outputs powQ c3s 0 (by decide)).1 (by decide) (by decide)⟩

/-- C6 counterexample: UpdateParams truncates sample_rate * attack_seconds
toward zero (1.5 becomes 1), while the claim's rounding would give 2. -/
theorem C6_counterexample_round :
    (UpdateParams 10 c6in initEnvelopeState).AttackSampleCount = 1 ∧
    max 1 (specRound (10 * c6in.AttackTimeSeconds)) = 2 ∧
    (UpdateParams 10 c6in initEnvelopeState).AttackSampleCount ≠ max 1 (specRound (10 * c6in.AttackTimeSeconds)) := by
  norm_num [UpdateParams, specRound, c6in, initEnvelopeState]

/-- C6 amended: after every UpdateParams call the sample counts are
max(1, truncation of sample_rate * seconds) (truncation toward zero of a
value at least 1, i.e. the floor), hence at least 1 and nonzero as division
denominators, and the curve factors are max(epsilon, raw) and strictly
positive, so pow never receives a non-positive exponent. -/
theorem C6_update_params_amended (SampleRate : ℚ) (inputs : FBlockInputs) (s : FEnvelopeState) :
    (UpdateParams SampleRate inputs s).AttackSampleCount = max 1 ⌊SampleRate * inputs.AttackTimeSeconds⌋ ∧
    1 ≤ (UpdateParams SampleRate inputs s).AttackSampleCount ∧
    (UpdateParams SampleRate inputs s).DecaySampleCount = max 1 ⌊SampleRate * inputs.DecayTimeSeconds⌋ ∧
    1 ≤ (UpdateParams SampleRate inputs s).DecaySampleCount ∧
    (UpdateParams SampleRate inputs s).AttackCurveFactor = max KINDA_SMALL_NUMBER inputs.AttackCurveFactor ∧
    0 < (UpdateParams SampleRate inputs s).AttackCurveFactor ∧
    (UpdateParams SampleRate inputs s).DecayCurveFactor = max KINDA_SMALL_NUMBER inputs.DecayCurveFactor ∧
    0 < (UpdateParams SampleRate inputs s).DecayCurveFactor ∧
    ((UpdateParams SampleRate inputs s).AttackSampleCount : ℚ) ≠ 0 ∧
    ((UpdateParams SampleRate inputs s).DecaySampleCount : ℚ) ≠ 0 := by
  refine ⟨floor_max_one _, UpdateParams_attack_one_le _ _ _, floor_max_one _,
    UpdateParams_decay_one_le _ _ _, rfl, UpdateParams_attack_curve_pos _ _ _, rfl,
    UpdateParams_decay_curve_pos _ _ _, ?_, ?_⟩
  · have h := UpdateParams_attack_one_le SampleRate inputs s
    exact_mod_cast (by omega : (UpdateParams SampleRate inputs s).AttackSampleCount ≠ 0)
  · have h := UpdateParams_decay_one_le SampleRate inputs s
    exact_mod_cast (by omega : (UpdateParams SampleRate inputs s).DecaySampleCount ≠ 0)

/-- C7: in LowPass mode, Execute leaves the whole envelope state (including
the sample index), both output trigger streams and the block-rate envelope
output untouched; the audio output is just the filter applied to the input. -/
theorem C7_lowpass_no_envelope {σ : Type} (pow : ℚ → ℚ → ℚ) (M : FilterModel σ)
    (inputs : FBlockInputs) (s : FOperatorState σ) :
    (Execute pow M ELowPassGateMode.LowPass inputs s).EnvelopeState = s.EnvelopeState ∧
    (Execute pow M ELowPassGateMode.LowPass inputs s).EnvelopeState.CurrentSampleIndex = s.EnvelopeState.CurrentSampleIndex ∧
    (Execute pow M ELowPassGateMode.LowPass inputs s).OnAttackTrigger = s.OnAttackTrigger ∧
    (Execute pow M ELowPassGateMode.LowPass inputs s).OnDone = s.OnDone ∧
    (Execute pow M ELowPassGateMode.LowPass inputs s).OutEnvelope = s.OutEnvelope ∧
    (Execute pow M ELowPassGateMode.LowPass inputs s).AudioOutput = (M.process (HandleLowPassFilter inputs.CutOffFrequency s).VariableFilterParams s.VariableFilterInternal inputs.AudioInput).1 := by
  obtain ⟨h1, h2, h3, h4, h5, h6⟩ := HandleLowPassFilter_frame_fields inputs.CutOffFrequency s
  rw [Execute_lowpass]
  exact ⟨h1, by rw [h1], h2, h3, h4, by rw [h5]⟩

/-- C9: the filter-parameter commit happens on a first call (all three
caches at the -1 sentinel) and on any call whose clamped cutoff is not
nearly equal to the cached frequency; when all three current values are
nearly equal to the caches the call changes nothing, and a repeated call
with the same cutoff is always a no-op. -/
theorem C9_filter_commit_cache {σ : Type} (c : ℚ) (s : FOperatorState σ) :
    ((s.PreviousFrequency = -1 ∧ s.PreviousResonance = -1 ∧ s.PreviousBandStopControl = -1) →
      HandleLowPassFilter c s = { s with VariableFilterParams := ⟨clampQ c 0 ((1 / 2) * s.SampleRate), 0, 0⟩, PreviousFrequency := clampQ c 0 ((1 / 2) * s.SampleRate), PreviousResonance := 0, PreviousBandStopControl := 0 }) ∧
    (¬ isNearlyEqual s.PreviousFrequency (clampQ c 0 ((1 / 2) * s.SampleRate)) →
      HandleLowPassFilter c s = { s with VariableFilterParams := ⟨clampQ c 0 ((1 / 2) * s.SampleRate), 0, 0⟩, PreviousFrequency := clampQ c 0 ((1 / 2) * s.SampleRate), PreviousResonance := 0, PreviousBandStopControl := 0 }) ∧
    ((isNearlyEqual s.PreviousFrequency (clampQ c 0 ((1 / 2) * s.SampleRate)) ∧ isNearlyEqual s.PreviousResonance 0 ∧ isNearlyEqual s.PreviousBandStopControl 0) →
      HandleLowPassFilter c s = s) ∧
    HandleLowPassFilter c (HandleLowPassFilter c s) = HandleLowPassFilter c s := by
  have hres : ∀ x : ℚ, x = -1 → ¬ isNearlyEqual x (clampQ 0 0 10) := by
    intro x hx
    rw [hx, clampQ_zero_ten]
    norm_num [isNearlyEqual, SMALL_NUMBER]
  refine ⟨?_, ?_, ?_, ?_⟩
  · rintro ⟨hf, hr, hb⟩
    rw [HandleLowPassFilter_commit c s (Or.inr (Or.inl (hres _ hr)))]
    rw [clampQ_zero_ten, clampQ_zero_one]
  · intro h
    rw [HandleLowPassFilter_commit c s (Or.inl h)]
    rw [clampQ_zero_ten, clampQ_zero_one]
  · rintro ⟨h1, h2, h3⟩
    exact HandleLowPassFilter_skip c s h1 (by rw [clampQ_zero_ten]; exact h2)
      (by rw [clampQ_zero_one]; exact h3)
  · by_cases hcond : (¬ isNearlyEqual s.PreviousFrequency (clampQ c 0 ((1 / 2) * s.SampleRate))
        ∨ ¬ isNearlyEqual s.PreviousResonance (clampQ 0 0 10)
        ∨ ¬ isNearlyEqual s.PreviousBandStopControl (clampQ 0 0 1))
    · rw [HandleLowPassFilter_commit c s hcond]
      exact HandleLowPassFilter_skip c _ (isNearlyEqual_refl _) (isNearlyEqual_refl _)
        (isNearlyEqual_refl _)
    · simp only [not_or, not_not] at hcond
      have hskip := HandleLowPassFilter_skip c s hcond.1 hcond.2.1 hcond.2.2
      rw [hskip]
      exact hskip

/-- C9 witness: a freshly constructed operator (sentinel caches) commits on
the first call with cutoff 1000, and the repeated call is a no-op. -/
theorem C9_filter_commit_cache_witness :
    c9s.PreviousFrequency = -1 ∧ c9s.PreviousResonance = -1 ∧ c9s.PreviousBandStopControl = -1 ∧
    HandleLowPassFilter 1000 c9s = { c9s with VariableFilterParams := ⟨clampQ 1000 0 ((1 / 2) * c9s.SampleRate), 0, 0⟩, PreviousFrequency := clampQ 1000 0 ((1 / 2) * c9s.SampleRate), PreviousResonance := 0, PreviousBandStopControl := 0 } ∧
    HandleLowPassFilter 1000 (HandleLowPassFilter 1000 c9s) = HandleLowPassFilter 1000 c9s :=
  ⟨rfl, rfl, rfl, (C9_filter_commit_cache 1000 c9s).1 ⟨rfl, rfl, rfl⟩,
    (C9_filter_commit_cache 1000 c9s).2.2.2⟩

/-- C2 counterexample: for a trigger at frame 1 the handler resets the
index to 0 but its advance call is the start-frame guard no-op, so the
index stays 0 instead of advancing to 1 as the claim states. -/
theorem C2_counterexample_midblock_trigger :
    c2s.EnvelopeState.CurrentSampleIndex = 0 ∧
    c2s.EnvelopeState.CurrentSampleIndex ≠ 1 ∧
    c2s.OutEnvelope = 0 ∧
    c2s.OnAttackTrigger = [1] := by
  norm_num +decide [c2s, c2in, Execute, CalculateEnvelope, executeBlock, subRangeEnds, onTriggerLambda, preTriggerLambda, GetNextEnvelopeOutput, UpdateParams, initOperatorState, initEnvelopeState, INDEX_NONE, powQ, idFilter, KINDA_SMALL_NUMBER]

/-- C2 amended: the trigger sub-range handler always emits the attack
trigger at the trigger frame; for a trigger at frame 0 its advance call
produces the first attack sample (the starting envelope value for a gradual
attack, 1 for an instant attack) and advances the index from 0 to 1; for a
trigger at frame f > 0 the advance call hits the start-frame guard, so the
output is 0 and the index, after the reset, remains 0. -/
theorem C2_trigger_handler_amended (pow : ℚ → ℚ → ℚ) {σ : Type}
    (hpow0 : ∀ q : ℚ, 0 < q → pow 0 q = 0)
    (SampleRate : ℚ) (inputs : FBlockInputs) (s : FOperatorState σ) (f e : ℤ) :
    (onTriggerLambda pow SampleRate inputs s f e).OnAttackTrigger = s.OnAttackTrigger ++ [f] ∧
    (f = 0 →
      (onTriggerLambda pow SampleRate inputs s f e).EnvelopeState.CurrentSampleIndex = 1 ∧
      (onTriggerLambda pow SampleRate inputs s f e).OutEnvelope =
        (if 1 < (UpdateParams SampleRate inputs s.EnvelopeState).AttackSampleCount then (if s.EnvelopeState.bHardReset then 0 else s.EnvelopeState.CurrentEnvelopeValue) else 1)) ∧
    (0 < f →
      (onTriggerLambda pow SampleRate inputs s f e).EnvelopeState.CurrentSampleIndex = 0 ∧
      (onTriggerLambda pow SampleRate inputs s f e).OutEnvelope = 0) := by
  refine ⟨rfl, fun hf => ?_, fun hf => ?_⟩
  · subst hf
    have h1le := UpdateParams_attack_one_le SampleRate inputs s.EnvelopeState
    have hacf := UpdateParams_attack_curve_pos SampleRate inputs s.EnvelopeState
    have h0A : (0 : ℤ) < (UpdateParams SampleRate inputs s.EnvelopeState).AttackSampleCount := by omega
    by_cases hA : 1 < (UpdateParams SampleRate inputs s.EnvelopeState).AttackSampleCount
    · constructor
      · simp [onTriggerLambda, GetNextEnvelopeOutput, INDEX_NONE, hA, h0A]
      · simp [onTriggerLambda, GetNextEnvelopeOutput, INDEX_NONE, hA, h0A, hpow0 _ hacf, UpdateParams_bHardReset, UpdateParams_CurrentEnvelopeValue]
    · have hA1 : (UpdateParams SampleRate inputs s.EnvelopeState).AttackSampleCount = 1 := by omega
      constructor
      · simp [onTriggerLambda, GetNextEnvelopeOutput, INDEX_NONE, hA1]
      · simp [onTriggerLambda, GetNextEnvelopeOutput, INDEX_NONE, hA1]
  · have hne : ¬ (f = 0) := by omega
    constructor
    · simp [onTriggerLambda, GetNextEnvelopeOutput, hf]
    · simp [onTriggerLambda, GetNextEnvelopeOutput, hf]

/-- C2 witness: the amended theorem applied at a frame-0 trigger and at a
frame-1 trigger on a fresh operator state. -/
theorem C2_trigger_handler_amended_witness :
    (0 : ℚ) < 1 ∧
    ((onTriggerLambda powQ 1 c2in (initOperatorState 1 ()) 0 4).EnvelopeState.CurrentSampleIndex = 1 ∧
      (onTriggerLambda powQ 1 c2in (initOperatorState 1 ()) 0 4).OutEnvelope =
        (if 1 < (UpdateParams 1 c2in (initOperatorState 1 () : FOperatorState Unit).EnvelopeState).AttackSampleCount then (if (initOperatorState 1 () : FOperatorState Unit).EnvelopeState.bHardReset then 0 else (initOperatorState 1 () : FOperatorState Unit).EnvelopeState.CurrentEnvelopeValue) else 1)) ∧
    ((onTriggerLambda powQ 1 c2in (initOperatorState 1 ()) 1 4).EnvelopeState.CurrentSampleIndex = 0 ∧
      (onTriggerLambda powQ 1 c2in (initOperatorState 1 ()) 1 4).OutEnvelope = 0) :=
  ⟨by norm_num,
    (C2_trigger_handler_amended powQ (fun q hq => powQ_zero hq) 1 c2in (initOperatorState 1 ()) 0 4).2.1 rfl,
    (C2_trigger_handler_amended powQ (fun q hq => powQ_zero hq) 1 c2in (initOperatorState 1 ()) 1 4).2.2 (by norm_num)⟩

/-- C4 counterexample: with attack count 1 and decay count 1, a run of
exactly A + D = 2 advance calls from index 0 produces no finished-frames
entry at all (the entry arrives only on the following, third call). -/
theorem C4_counterexample_completion_count :
    (advanceRun powQ 2 (c4s, [], 0)).2.1 = [] ∧
    ¬ ((advanceRun powQ 2 (c4s, [], 0)).2.1.length = 1) ∧
    (advanceRun powQ 3 (c4s, [], 0)).2.1 = [0] := by
  norm_num +decide [advanceRun, GetNextEnvelopeOutput, c4s, initEnvelopeState, INDEX_NONE, powQ]

/-- C4 amended: for attack count A >= 1 and decay count D >= 1, a run of
advance calls from index 0 with start frame 0 produces its single
finished-frames entry (the literal frame 0) on call A + D + 1, not within
the first A + D calls; on that final call the index becomes NONE and the
output value is 0. -/
theorem C4_completion_amended (pow : ℚ → ℚ → ℚ) (s : FEnvelopeState)
    (h0 : s.CurrentSampleIndex = 0)
    (hA : 1 ≤ s.AttackSampleCount) (hD : 1 ≤ s.DecaySampleCount) :
    (advanceRun pow (s.AttackSampleCount + s.DecaySampleCount).toNat (s, [], 0)).2.1 = [] ∧
    (advanceRun pow ((s.AttackSampleCount + s.DecaySampleCount).toNat + 1) (s, [], 0)).2.1 = [0] ∧
    (advanceRun pow ((s.AttackSampleCount + s.DecaySampleCount).toNat + 1) (s, [], 0)).1.CurrentSampleIndex = INDEX_NONE ∧
    (advanceRun pow ((s.AttackSampleCount + s.DecaySampleCount).toNat + 1) (s, [], 0)).2.2 = 0 := by
  have hcast : (((s.AttackSampleCount + s.DecaySampleCount).toNat : ℤ)) = s.AttackSampleCount + s.DecaySampleCount :=
    Int.toNat_of_nonneg (by omega)
  obtain ⟨hst, hfs⟩ := advanceRun_no_finish pow (s.AttackSampleCount + s.DecaySampleCount).toNat s [] 0
    (by omega) (by rw [h0, hcast]; omega)
  have hidx : (advanceRun pow (s.AttackSampleCount + s.DecaySampleCount).toNat (s, [], 0)).1.CurrentSampleIndex = s.AttackSampleCount + s.DecaySampleCount := by
    rw [hst]
    simp [h0, hcast]
  have hAcount : (advanceRun pow (s.AttackSampleCount + s.DecaySampleCount).toNat (s, [], 0)).1.AttackSampleCount = s.AttackSampleCount := by
    rw [hst]
  have hDcount : (advanceRun pow (s.AttackSampleCount + s.DecaySampleCount).toNat (s, [], 0)).1.DecaySampleCount = s.DecaySampleCount := by
    rw [hst]
  have hstep : GetNextEnvelopeOutput pow (advanceRun pow (s.AttackSampleCount + s.DecaySampleCount).toNat (s, [], 0)).1 0 0 =
      ({ (advanceRun pow (s.AttackSampleCount + s.DecaySampleCount).toNat (s, [], 0)).1 with CurrentSampleIndex := INDEX_NONE }, [(0 : ℤ)], 0) := by
    have hg : ¬ ((advanceRun pow (s.AttackSampleCount + s.DecaySampleCount).toNat (s, [], 0)).1.CurrentSampleIndex = INDEX_NONE) := by
      rw [hidx]
      simp [INDEX_NONE]
      omega
    have hna : ¬ ((advanceRun pow (s.AttackSampleCount + s.DecaySampleCount).toNat (s, [], 0)).1.CurrentSampleIndex < (advanceRun pow (s.AttackSampleCount + s.DecaySampleCount).toNat (s, [], 0)).1.AttackSampleCount) := by
      rw [hidx, hAcount]
      omega
    have hnd : ¬ ((advanceRun pow (s.AttackSampleCount + s.DecaySampleCount).toNat (s, [], 0)).1.CurrentSampleIndex < (advanceRun pow (s.AttackSampleCount + s.DecaySampleCount).toNat (s, [], 0)).1.AttackSampleCount + (advanceRun pow (s.AttackSampleCount + s.DecaySampleCount).toNat (s, [], 0)).1.DecaySampleCount) := by
      rw [hidx, hAcount, hDcount]
      omega
    simp [GetNextEnvelopeOutput, hg, hna, hnd]
  have hone : ∀ acc : FEnvelopeState × List ℤ × ℚ, advanceRun pow 1 acc =
      ((GetNextEnvelopeOutput pow acc.1 0 0).1, acc.2.1 ++ (GetNextEnvelopeOutput pow acc.1 0 0).2.1, (GetNextEnvelopeOutput pow acc.1 0 0).2.2) :=
    fun acc => rfl
  have hsplit := advanceRun_add pow (s.AttackSampleCount + s.DecaySampleCount).toNat 1 (s, [], 0)
  refine ⟨hfs, ?_, ?_, ?_⟩
  · rw [hsplit, hone, hstep, hfs]
    rfl
  · rw [hsplit, hone, hstep]
  · rw [hsplit, hone, hstep]

/-- C4 witness: the amended completion behavior evaluated at attack count 1,
decay count 1. -/
theorem C4_completion_amended_witness :
    c4s.CurrentSampleIndex = 0 ∧ 1 ≤ c4s.AttackSampleCount ∧ 1 ≤ c4s.DecaySampleCount ∧
    ((advanceRun powQ (c4s.AttackSampleCount + c4s.DecaySampleCount).toNat (c4s, [], 0)).2.1 = [] ∧
      (advanceRun powQ ((c4s.AttackSampleCount + c4s.DecaySampleCount).toNat + 1) (c4s, [], 0)).2.1 = [0] ∧
      (advanceRun powQ ((c4s.AttackSampleCount + c4s.DecaySampleCount).toNat + 1) (c4s, [], 0)).1.CurrentSampleIndex = INDEX_NONE ∧
      (advanceRun powQ ((c4s.AttackSampleCount + c4s.DecaySampleCount).toNat + 1) (c4s, [], 0)).2.2 = 0) :=
  ⟨by decide, by decide, by decide,
    C4_completion_amended powQ c4s (by decide) (by decide) (by decide)⟩

/-- C10: in every mode, every frame emitted on the envelope-done trigger
stream during a block is the literal frame index 0 (given that holds of any
entries carried in from the previous state, which only matters for the
LowPass mode that leaves the stream untouched), and at the engine level
every finished-frames entry of any advance call is the literal 0. -/
theorem C10_done_trigger_frame_zero {σ : Type} (pow : ℚ → ℚ → ℚ) (M : FilterModel σ)
    (Mode : ELowPassGateMode) (inputs : FBlockInputs) (s : FOperatorState σ)
    (hprev : ∀ f ∈ s.OnDone, f = (0 : ℤ)) :
    (∀ f ∈ (Execute pow M Mode inputs s).OnDone, f = 0) ∧
    (∀ (st : FEnvelopeState) (a b f : ℤ), f ∈ (GetNextEnvelopeOutput pow st a b).2.1 → f = 0) := by
  constructor
  · cases Mode with
    | LowPass =>
      rw [Execute_lowpass]
      intro f hf
      exact hprev f ((HandleLowPassFilter_frame_fields inputs.CutOffFrequency s).2.2.1 ▸ hf)
    | VCA =>
      rw [Execute_vca]
      intro f hf
      exact calcEnv_ondone_zero pow inputs s f hf
    | Both =>
      rw [Execute_both]
      intro f hf
      refine calcEnv_ondone_zero pow inputs s f ?_
      exact (HandleLowPassFilter_frame_fields inputs.CutOffFrequency (CalculateEnvelope pow inputs s)).2.2.1 ▸ hf
  · intro st a b f hf
    exact GetNext_finished_zero pow st a b f hf

/-- C10 witness: on the block in which the envelope completes, the done
stream is exactly the single frame 0, and the theorem applies to it. -/
theorem C10_done_trigger_frame_zero_witness :
    (∀ f ∈ c10s2.OnDone, f = (0 : ℤ)) ∧
    (∀ f ∈ (Execute powQ idFilter ELowPassGateMode.VCA c10in2 c10s2).OnDone, f = 0) ∧
    (Execute powQ idFilter ELowPassGateMode.VCA c10in2 c10s2).OnDone = [0] := by
  have hdone : (Execute powQ idFilter ELowPassGateMode.VCA c10in2 c10s2).OnDone = [0] := by
    norm_num +decide [c10s2, c10s1, c10in1, c10in2, Execute, CalculateEnvelope, executeBlock, subRangeEnds, onTriggerLambda, preTriggerLambda, GetNextEnvelopeOutput, UpdateParams, initOperatorState, initEnvelopeState, INDEX_NONE, powQ, idFilter, KINDA_SMALL_NUMBER]
  have hprev : ∀ f ∈ c10s2.OnDone, f = (0 : ℤ) := by
    have h2 : c10s2.OnDone = [] := by
      norm_num +decide [c10s2, c10s1, c10in1, c10in2, Execute, CalculateEnvelope, executeBlock, subRangeEnds, onTriggerLambda, preTriggerLambda, GetNextEnvelopeOutput, UpdateParams, initOperatorState, initEnvelopeState, INDEX_NONE, powQ, idFilter, KINDA_SMALL_NUMBER]
    rw [h2]
    intro f hf
    simp at hf
  exact ⟨hprev, (C10_done_trigger_frame_zero powQ idFilter ELowPassGateMode.VCA c10in2 c10s2 hprev).1, hdone⟩

/-- C5: in Both mode (when the filter-parameter commit fires, e.g. on a
fresh operator or a changed cutoff), the cutoff is linearly mapped and
clamped from 0..20000 into the unit interval, the input is scaled by
envelope times that mapped value into a scratch buffer, and the filter is
applied to the scratch buffer with the unmapped cutoff clamped to
[0, sample_rate / 2] as the committed filter frequency. -/
theorem C5_both_mode_routing {σ : Type} (pow : ℚ → ℚ → ℚ) (M : FilterModel σ)
    (inputs : FBlockInputs) (s : FOperatorState σ)
    (hupd : ¬ isNearlyEqual s.PreviousFrequency (clampQ inputs.CutOffFrequency 0 ((1 / 2) * s.SampleRate))
      ∨ ¬ isNearlyEqual s.PreviousResonance (clampQ 0 0 10)
      ∨ ¬ isNearlyEqual s.PreviousBandStopControl (clampQ 0 0 1)) :
    (Execute pow M ELowPassGateMode.Both inputs s).AudioOutput =
      (M.process ⟨clampQ inputs.CutOffFrequency 0 ((1 / 2) * s.SampleRate), 0, 0⟩ s.VariableFilterInternal
        (inputs.AudioInput.map (fun x => x * ((CalculateEnvelope pow inputs s).OutEnvelope * GetMappedRangeValueClamped 0 20000 0 1 inputs.CutOffFrequency)))).1 ∧
    (Execute pow M ELowPassGateMode.Both inputs s).VariableFilterParams = ⟨clampQ inputs.CutOffFrequency 0 ((1 / 2) * s.SampleRate), 0, 0⟩ := by
  obtain ⟨hp1, hp2, hp3, hp4, hp5, hp6⟩ := calcEnv_preserves pow inputs s
  have hcond : ¬ isNearlyEqual (CalculateEnvelope pow inputs s).PreviousFrequency (clampQ inputs.CutOffFrequency 0 ((1 / 2) * (CalculateEnvelope pow inputs s).SampleRate))
      ∨ ¬ isNearlyEqual (CalculateEnvelope pow inputs s).PreviousResonance (clampQ 0 0 10)
      ∨ ¬ isNearlyEqual (CalculateEnvelope pow inputs s).PreviousBandStopControl (clampQ 0 0 1) := by
    rw [hp1, hp2, hp3, hp6]
    exact hupd
  have hcommit := HandleLowPassFilter_commit inputs.CutOffFrequency (CalculateEnvelope pow inputs s) hcond
  rw [Execute_both, hcommit]
  constructor
  · simp only [hp5, hp6, clampQ_zero_ten, clampQ_zero_one]
  · simp only [hp6, clampQ_zero_ten, clampQ_zero_one]

/-- C5 witness: the Both-mode routing applied to a fresh operator at sample
rate 48000, where the sentinel caches make the commit fire. -/
theorem C5_both_mode_routing_witness :
    (¬ isNearlyEqual (initOperatorState 48000 () : FOperatorState Unit).PreviousFrequency (clampQ c5in.CutOffFrequency 0 ((1 / 2) * (initOperatorState 48000 () : FOperatorState Unit).SampleRate))) ∧
    (Execute powQ idFilter ELowPassGateMode.Both c5in (initOperatorState 48000 ())).AudioOutput =
      (idFilter.process ⟨clampQ c5in.CutOffFrequency 0 ((1 / 2) * (initOperatorState 48000 () : FOperatorState Unit).SampleRate), 0, 0⟩ (initOperatorState 48000 () : FOperatorState Unit).VariableFilterInternal
        (c5in.AudioInput.map (fun x => x * ((CalculateEnvelope powQ c5in (initOperatorState 48000 () : FOperatorState Unit)).OutEnvelope * GetMappedRangeValueClamped 0 20000 0 1 c5in.CutOffFrequency)))).1 ∧
    (Execute powQ idFilter ELowPassGateMode.Both c5in (initOperatorState 48000 ())).VariableFilterParams = ⟨clampQ c5in.CutOffFrequency 0 ((1 / 2) * (initOperatorState 48000 () : FOperatorState Unit).SampleRate), 0, 0⟩ := by
  have hne : ¬ isNearlyEqual (initOperatorState 48000 () : FOperatorState Unit).PreviousFrequency (clampQ c5in.CutOffFrequency 0 ((1 / 2) * (initOperatorState 48000 () : FOperatorState Unit).SampleRate)) := by
    norm_num [initOperatorState, c5in, clampQ, isNearlyEqual, SMALL_NUMBER]
  obtain ⟨h1, h2⟩ := C5_both_mode_routing powQ idFilter c5in (initOperatorState 48000 ()) (Or.inl hne)
  exact ⟨hne, h1, h2⟩

/-- C8: in VCA mode every output sample is the corresponding input sample
times the block-rate envelope value left by the trigger dispatch; in
particular a constant input of 1 with envelope value one half gives a
constant output of one half. -/
theorem C8_vca_scaling {σ : Type} (pow : ℚ → ℚ → ℚ) (M : FilterModel σ)
    (inputs : FBlockInputs) (s : FOperatorState σ) :
    (Execute pow M ELowPassGateMode.VCA inputs s).AudioOutput =
      inputs.AudioInput.map (fun x => x * (CalculateEnvelope pow inputs s).OutEnvelope) ∧
    (∀ n : ℕ, inputs.AudioInput = List.replicate n 1 →
      (CalculateEnvelope pow inputs s).OutEnvelope = 1 / 2 →
      (Execute pow M ELowPassGateMode.VCA inputs s).AudioOutput = List.replicate n (1 / 2)) := by
  constructor
  · rw [Execute_vca]
  · intro n hin henv
    rw [Execute_vca]
    simp only [hin, henv, List.map_replicate, one_mul]

/-- C8 witness: on the second block the envelope value is one half and the
constant-1 input is scaled to a constant one half. -/
theorem C8_vca_scaling_witness :
    c8in2.AudioInput = List.replicate 3 1 ∧
    (CalculateEnvelope powQ c8in2 c8s1).OutEnvelope = 1 / 2 ∧
    (Execute powQ idFilter ELowPassGateMode.VCA c8in2 c8s1).AudioOutput = List.replicate 3 (1 / 2) := by
  have henv : (CalculateEnvelope powQ c8in2 c8s1).OutEnvelope = 1 / 2 := by
    norm_num +decide [c8s1, c8in1, c8in2, Execute, CalculateEnvelope, executeBlock, subRangeEnds, onTriggerLambda, preTriggerLambda, GetNextEnvelopeOutput, UpdateParams, initOperatorState, initEnvelopeState, INDEX_NONE, powQ, idFilter, KINDA_SMALL_NUMBER, List.replicate]
  exact ⟨rfl, henv, (C8_vca_scaling powQ idFilter c8in2 c8s1).2 3 rfl henv⟩

/-- C1: evaluation at the failing input. After block two the last computed
envelope output is one half, but CurrentEnvelopeValue — which no code path
ever updates with the computed output — is still 0, so the frame-0
retrigger of block three (hard reset not requested) sets
StartingEnvelopeValue to 0, not to the last computed output, and the first
attack-phase output after the retrigger is 0, strictly below the pre-trigger
value one half, violating the claimed continuity. -/
theorem C1_retrigger_baseline_stale :
    c1s2.OutEnvelope = 1 / 2 ∧
    c1s2.EnvelopeState.CurrentSampleIndex = 2 ∧
    c1s2.EnvelopeState.CurrentEnvelopeValue = 0 ∧
    c1s3.EnvelopeState.bHardReset = false ∧
    c1s3.EnvelopeState.StartingEnvelopeValue = 0 ∧
    c1s3.OutEnvelope = 0 ∧
    c1s3.OutEnvelope < c1s2.OutEnvelope := by
  norm_num +decide [c1s1, c1s2, c1s3, c1in1, c1in2, Execute, CalculateEnvelope, executeBlock, subRangeEnds, onTriggerLambda, preTriggerLambda, GetNextEnvelopeOutput, UpdateParams, initOperatorState, initEnvelopeState, INDEX_NONE, powQ, idFilter, KINDA_SMALL_NUMBER]

end BuchlaLPG
